import Mathlib

/-!
Verification of the authentication/authorization core of the `login-go`
repository (package `services`/`handlers`/`models`), shallowly embedded in
Lean 4.

The embedding mirrors, definition by definition:
* `internal/models/user.go` — `User`, `Claims`, `HashPassword`, `CheckPassword`
  (the bcrypt primitive is modelled symbolically: a hash records the hashed
  password and the random salt; `CompareHashAndPassword` succeeds exactly when
  the recorded password equals the submitted one, and `GenerateFromPassword`
  fails on inputs longer than 72 bytes, as the Go library documents);
* `internal/services/auth.go` — `GenerateToken`, `ValidateToken`, `Login`;
  the JWT wire format (three dot-separated segments: algorithm header, claims
  payload, signature) is embedded as an executable injective string codec, and
  the RSA signature is modelled symbolically: signing records the private
  key's identity together with the signed header+claims, and verification
  succeeds exactly when that record matches the verifying public key and the
  token's own header+claims (a matching key pair shares its `keyId`);
* the auth handler file (`AuthHandler.Login`, `AuthHandler.ValidateToken`,
  `AuthHandler.AuthMiddleware`, `GetAuthenticatedUserID`) and
  `internal/handlers/user.go` (`UserHandler.GetByID`);
* the user repository (`GetByUsername`, `GetByIDWithContext`), modelled as a
  lookup over a list of stored users.

Time is an integer Unix-seconds clock passed explicitly; Prometheus counters,
zap logging, rate limiting and request cancellation are observability/transport
concerns with no bearing on the verified contracts and are not modelled.
-/

set_option maxRecDepth 1000000

deriving instance DecidableEq for Except

namespace LoginGo

/-! ## Wire-format primitives

The JWT compact serialization is base64url segments joined by `'.'`; base64url
text never contains a space or a dot inside a segment.  The embedded codec
keeps exactly those two properties (segments are words over `x - letters
digits`, joined by `'.'`), encoding numbers in unary and strings as
length-prefixed lists of code points, which keeps every decoder structurally
recursive and the round-trip proofs elementary. -/

/-- Unary encoding of a natural number: `n` copies of `'x'` closed by `'-'`. -/
def encNatL (n : Nat) : List Char :=
  List.replicate n 'x' ++ ['-']

/-- Decoder matching `encNatL`; returns the value and the unread rest. -/
def decNatL : List Char → Option (Nat × List Char)
  | 'x' :: rest =>
    match decNatL rest with
    | some (n, r) => some (n + 1, r)
    | none => none
  | '-' :: rest => some (0, rest)
  | _ => none

/-- Signed integer: sign tag `'m'` (negative) or `'p'`, then `natAbs`. -/
def encIntL (i : Int) : List Char :=
  (if i < 0 then 'm' else 'p') :: encNatL i.natAbs

/-- Decoder matching `encIntL`. -/
def decIntL : List Char → Option (Int × List Char)
  | 'm' :: rest =>
    match decNatL rest with
    | some (n, r) => some (-(n : Int), r)
    | none => none
  | 'p' :: rest =>
    match decNatL rest with
    | some (n, r) => some ((n : Int), r)
    | none => none
  | _ => none

/-- A string as its length followed by its code points, all in unary. -/
def encStrL (s : String) : List Char :=
  encNatL s.data.length ++ (s.data.map (fun c => encNatL c.toNat)).flatten

/-- Read `n` code points. -/
def decCharsL : Nat → List Char → Option (List Char × List Char)
  | 0, rest => some ([], rest)
  | n + 1, rest =>
    match decNatL rest with
    | some (c, r) =>
      match decCharsL n r with
      | some (cs, r2) => some (Char.ofNat c :: cs, r2)
      | none => none
    | none => none

/-- Decoder matching `encStrL`. -/
def decStrL (l : List Char) : Option (String × List Char) :=
  match decNatL l with
  | some (n, r) =>
    match decCharsL n r with
    | some (cs, r2) => some (String.mk cs, r2)
    | none => none
  | none => none

theorem decNatL_encNatL (n : Nat) (r : List Char) :
    decNatL (encNatL n ++ r) = some (n, r) := by
  induction n with
  | zero => simp [encNatL, decNatL]
  | succ k ih =>
    have h : encNatL (k + 1) ++ r = 'x' :: (encNatL k ++ r) := by
      simp [encNatL, List.replicate_succ]
    rw [h]
    simp [decNatL, ih]

theorem decIntL_encIntL (i : Int) (r : List Char) :
    decIntL (encIntL i ++ r) = some (i, r) := by
  by_cases h : i < 0
  · simp only [encIntL, if_pos h, List.cons_append, decIntL, decNatL_encNatL]
    congr 2
    omega
  · simp only [encIntL, if_neg h, List.cons_append, decIntL, decNatL_encNatL]
    congr 2
    omega

theorem decCharsL_encChars (cs : List Char) (r : List Char) :
    decCharsL cs.length ((cs.map (fun c => encNatL c.toNat)).flatten ++ r) =
      some (cs, r) := by
  induction cs with
  | nil => simp [decCharsL]
  | cons c tl ih =>
    simp only [List.map_cons, List.flatten_cons, List.length_cons,
      List.append_assoc]
    simp [decCharsL, decNatL_encNatL, ih, Char.ofNat_toNat]

theorem decStrL_encStrL (s : String) (r : List Char) :
    decStrL (encStrL s ++ r) = some (s, r) := by
  obtain ⟨cs⟩ := s
  simp only [encStrL, List.append_assoc, decStrL, decNatL_encNatL,
    decCharsL_encChars]

/-! ## Data model (`internal/models/user.go`)

`models.User` (the `CreatedAt` timestamp plays no role in any contract and is
omitted) and `models.Claims` with its embedded `jwt.RegisteredClaims` fields
that `GenerateToken` actually sets: `ExpiresAt`, `IssuedAt`, `NotBefore`,
`Issuer`, `Subject`.  Timestamps are Unix seconds as `Int`. -/

structure User where
  id : Nat
  name : String
  usernameForLogin : String
  email : String
  password : String
  deriving DecidableEq, Repr

structure ClaimsData where
  userID : Nat
  username : String
  expiresAt : Int
  issuedAt : Int
  notBefore : Int
  issuer : String
  subject : String
  deriving DecidableEq, Repr

/-- JWT signing algorithms that occur in the development.  Go's
`jwt.SigningMethodRSA` family is exactly `RS256/RS384/RS512`; `HS256` is the
shared-secret HMAC method, `ES256` is ECDSA, and `noneAlg` is the unsecured
`"none"` method. -/
inductive Alg
  | RS256
  | RS384
  | RS512
  | HS256
  | ES256
  | noneAlg
  deriving DecidableEq, Repr

/-- The Go type assertion `token.Method.(*jwt.SigningMethodRSA)` in
`ValidateToken`'s key function succeeds exactly for the RSA family. -/
def Alg.isRSA : Alg → Bool
  | .RS256 => true
  | .RS384 => true
  | .RS512 => true
  | _ => false

/-- `alg` header value, as in the JWT header. -/
def algName : Alg → List Char
  | .RS256 => ['R', 'S', '2', '5', '6']
  | .RS384 => ['R', 'S', '3', '8', '4']
  | .RS512 => ['R', 'S', '5', '1', '2']
  | .HS256 => ['H', 'S', '2', '5', '6']
  | .ES256 => ['E', 'S', '2', '5', '6']
  | .noneAlg => ['n', 'o', 'n', 'e']

/-- RSA keys, symbolically: a key pair is identified by `keyId`, and
`priv.keyId = pub.keyId` states that the two keys form a matching pair
("both keys must be the same cryptographic pair"). -/
structure PrivKey where
  keyId : Nat
  deriving DecidableEq, Repr

structure PubKey where
  keyId : Nat
  deriving DecidableEq, Repr

/-- Signature bytes, symbolically.  An honestly produced RS256-family
signature (`token.SignedString(s.privateKey)`) records the signing key and
the signed header+payload; `raw` stands for any other byte string an
attacker may attach.  Verification of a token against `pub` succeeds exactly
when the signature is `signed pub.keyId` over the token's own header and
payload. -/
inductive Sig
  | signed (keyId : Nat) (alg : Alg) (c : ClaimsData)
  | raw (n : Nat)
  deriving DecidableEq, Repr

/-- A structurally well-formed JWT: algorithm header, claims payload,
signature. -/
structure Token where
  alg : Alg
  claims : ClaimsData
  sig : Sig
  deriving DecidableEq, Repr

/-! ## Token serialization: three dot-separated segments -/

def encClaimsL (c : ClaimsData) : List Char :=
  encNatL c.userID ++ encStrL c.username ++ encIntL c.expiresAt ++
    encIntL c.issuedAt ++ encIntL c.notBefore ++ encStrL c.issuer ++
    encStrL c.subject

def decClaimsL (l : List Char) : Option (ClaimsData × List Char) :=
  match decNatL l with
  | some (uid, r1) =>
    match decStrL r1 with
    | some (un, r2) =>
      match decIntL r2 with
      | some (e, r3) =>
        match decIntL r3 with
        | some (ia, r4) =>
          match decIntL r4 with
          | some (nb, r5) =>
            match decStrL r5 with
            | some (iss, r6) =>
              match decStrL r6 with
              | some (sub, r7) => some (⟨uid, un, e, ia, nb, iss, sub⟩, r7)
              | none => none
            | none => none
          | none => none
        | none => none
      | none => none
    | none => none
  | none => none

def decAlgL : List Char → Option (Alg × List Char)
  | 'R' :: 'S' :: '2' :: '5' :: '6' :: r => some (.RS256, r)
  | 'R' :: 'S' :: '3' :: '8' :: '4' :: r => some (.RS384, r)
  | 'R' :: 'S' :: '5' :: '1' :: '2' :: r => some (.RS512, r)
  | 'H' :: 'S' :: '2' :: '5' :: '6' :: r => some (.HS256, r)
  | 'E' :: 'S' :: '2' :: '5' :: '6' :: r => some (.ES256, r)
  | 'n' :: 'o' :: 'n' :: 'e' :: r => some (.noneAlg, r)
  | _ => none

def encSigL : Sig → List Char
  | .signed k a c => 's' :: (encNatL k ++ (algName a ++ encClaimsL c))
  | .raw n => 'r' :: encNatL n

def decSigL : List Char → Option (Sig × List Char)
  | 's' :: r =>
    match decNatL r with
    | some (k, r1) =>
      match decAlgL r1 with
      | some (a, r2) =>
        match decClaimsL r2 with
        | some (c, r3) => some (.signed k a c, r3)
        | none => none
      | none => none
    | none => none
  | 'r' :: r =>
    match decNatL r with
    | some (n, r1) => some (.raw n, r1)
    | none => none
  | _ => none

/-- Compact serialization: `header "." payload "." signature`. -/
def encode (t : Token) : String :=
  String.mk (algName t.alg ++ '.' :: (encClaimsL t.claims ++ '.' :: encSigL t.sig))

/-- Structural parse of a compact token string (the `MalformedToken` side of
`jwt.ParseWithClaims`): exactly three well-formed segments. -/
def decode (s : String) : Option Token :=
  match decAlgL s.data with
  | some (a, '.' :: r2) =>
    match decClaimsL r2 with
    | some (c, '.' :: r4) =>
      match decSigL r4 with
      | some (g, []) => some ⟨a, c, g⟩
      | _ => none
    | _ => none
  | _ => none

theorem decClaimsL_encClaimsL (c : ClaimsData) (r : List Char) :
    decClaimsL (encClaimsL c ++ r) = some (c, r) := by
  obtain ⟨uid, un, e, ia, nb, iss, sub⟩ := c
  simp only [encClaimsL, List.append_assoc, decClaimsL, decNatL_encNatL,
    decStrL_encStrL, decIntL_encIntL]

theorem decAlgL_algName (a : Alg) (r : List Char) :
    decAlgL (algName a ++ r) = some (a, r) := by
  cases a <;> rfl

theorem decSigL_encSigL (g : Sig) (r : List Char) :
    decSigL (encSigL g ++ r) = some (g, r) := by
  cases g with
  | signed k a c =>
    simp only [encSigL, List.cons_append, List.append_assoc, decSigL,
      decNatL_encNatL, decAlgL_algName, decClaimsL_encClaimsL]
  | raw n =>
    simp only [encSigL, List.cons_append, decSigL, decNatL_encNatL]

/-- The codec round trip: parsing a serialized token recovers it exactly. -/
theorem decode_encode (t : Token) : decode (encode t) = some t := by
  obtain ⟨a, c, g⟩ := t
  have hs : decSigL (encSigL g ++ ([] : List Char)) = some (g, []) :=
    decSigL_encSigL g []
  simp only [List.append_nil] at hs
  simp only [encode, decode, decAlgL_algName, decClaimsL_encClaimsL, hs]

/-- A serialized token is never the empty string. -/
theorem encode_ne_empty (t : Token) : encode t ≠ "" := by
  obtain ⟨a, c, g⟩ := t
  cases a <;> simp [encode, algName, String.ext_iff]

/-- A serialized token never starts with `"Bearer "` (its first character is
the first letter of an `alg` name; base64url segments cannot contain a
space either way). -/
theorem bearer_not_isPrefixOf_encode (t : Token) :
    ("Bearer ".data.isPrefixOf (encode t).data) = false := by
  obtain ⟨a, c, g⟩ := t
  cases a <;> simp [encode, algName, List.isPrefixOf]

/-! ## Credential hashing (`golang.org/x/crypto/bcrypt`, used by
`models.User.HashPassword` / `CheckPassword` and `services.Login`)

Symbolic model: a bcrypt hash records the salt and the hashed password; the
comparison succeeds exactly when the recorded password equals the submitted
one.  As documented for the Go library, `GenerateFromPassword` rejects
passwords longer than 72 bytes. -/

def bcryptGenerateFromPassword (password : String) (salt : Nat) :
    Except String String :=
  if password.utf8ByteSize > 72 then
    .error "bcrypt: password length exceeds 72 bytes"
  else
    .ok (String.mk ('$' :: (encNatL salt ++ encStrL password)))

def bcryptCompareHashAndPassword (hash password : String) : Bool :=
  match hash.data with
  | '$' :: r =>
    match decNatL r with
    | some (_, r1) =>
      match decStrL r1 with
      | some (p, []) => p == password
      | _ => false
    | _ => false
  | _ => false

/-- `models.User.HashPassword`: replaces the password field by its bcrypt
hash (the salt argument stands for the primitive's internal randomness). -/
def User.hashPassword (u : User) (salt : Nat) : Except String User :=
  match bcryptGenerateFromPassword u.password salt with
  | .ok h => .ok { u with password := h }
  | .error e => .error e

/-- `models.User.CheckPassword`: `true` stands for a `nil` comparison
error. -/
def User.checkPassword (u : User) (password : String) : Bool :=
  bcryptCompareHashAndPassword u.password password

theorem bcryptCompare_generate (p q : String) (salt : Nat) (h : String)
    (hg : bcryptGenerateFromPassword p salt = .ok h) :
    bcryptCompareHashAndPassword h q = (p == q) := by
  by_cases hle : p.utf8ByteSize > 72
  · simp [bcryptGenerateFromPassword, hle] at hg
  · simp only [bcryptGenerateFromPassword, if_neg hle, Except.ok.injEq] at hg
    subst hg
    have hs := decStrL_encStrL p []
    simp only [List.append_nil] at hs
    simp only [bcryptCompareHashAndPassword, decNatL_encNatL, hs]

/-! ## Auth service (`internal/services/auth.go`)

The user repository collaborator (`repository.UserRepository`, gorm-backed)
is modelled as the stored table: a list of users; `GetByUsername` /
`GetByID` are first-match lookups, `nil` result standing for the
`record not found` error. -/

def getByUsername (repo : List User) (username : String) : Option User :=
  repo.find? (fun u => u.usernameForLogin == username)

def getByID (repo : List User) (id : Nat) : Option User :=
  repo.find? (fun u => u.id == id)

/-- Error kinds produced by the token paths of `AuthService`.  Go collapses
all of them into wrapped `error` values at the API boundary; the kind is
kept so that expiry in particular remains observable. -/
inductive AuthErr
  | invalidUser
  | emptyToken
  | malformedToken
  | unexpectedMethod (a : Alg)
  | invalidSignature
  | expired
  | notYetValid
  deriving DecidableEq, Repr

/-- `AuthService.GenerateToken`.  `tokenExpiry` is the configured
`s.tokenExpiry`; `now` is the sampled clock; a `nil` user pointer is the
`none` case.  Claims are built exactly as in the source: `ExpiresAt = now +
expiry`, `IssuedAt = NotBefore = now`, `Issuer = "login-go"`, `Subject =
fmt.Sprintf("%d", user.ID)`; the token is signed with `RS256` by the
service's private key. -/
def generateToken (priv : PrivKey) (tokenExpiry : Int) (now : Int)
    (user : Option User) : Except AuthErr String :=
  match user with
  | Option.none => .error .invalidUser
  | some u =>
    if u.id = 0 then .error .invalidUser
    else
      let c : ClaimsData :=
        { userID := u.id
          username := u.usernameForLogin
          expiresAt := now + tokenExpiry
          issuedAt := now
          notBefore := now
          issuer := "login-go"
          subject := Nat.repr u.id }
      .ok (encode ⟨.RS256, c, .signed priv.keyId .RS256 c⟩)

/-- `AuthService.ValidateToken`: empty-string check, then
`jwt.ParseWithClaims` — structural parse, the key function's
`*jwt.SigningMethodRSA` type assertion, signature verification against the
service's public key, then registered-claims validation (`exp`, `nbf`;
golang-jwt v5 checks `iat` only when explicitly enabled, which this service
does not). -/
def validateToken (pub : PubKey) (now : Int) (tokenStr : String) :
    Except AuthErr ClaimsData :=
  if tokenStr = "" then .error .emptyToken
  else
    match decode tokenStr with
    | Option.none => .error .malformedToken
    | some t =>
      if ¬ t.alg.isRSA then .error (.unexpectedMethod t.alg)
      else if t.sig ≠ Sig.signed pub.keyId t.alg t.claims then
        .error .invalidSignature
      else if now > t.claims.expiresAt then .error .expired
      else if now < t.claims.notBefore then .error .notYetValid
      else .ok t.claims

/-- `AuthService.Login`.  Errors are the `errors.New` messages of the
source, so equality of errors is equality of what the caller observes. -/
def login (repo : List User) (priv : PrivKey) (tokenExpiry : Int) (now : Int)
    (username password : String) : Except String (User × String) :=
  if username = "" ∨ password = "" then
    .error "username and password are required"
  else
    match getByUsername repo username with
    | Option.none => .error "invalid credentials"
    | some user =>
      if ¬ bcryptCompareHashAndPassword user.password password then
        .error "invalid credentials"
      else
        match generateToken priv tokenExpiry now (some user) with
        | .error _ => .error "failed to generate token"
        | .ok token => .ok (user, token)

/-! ## HTTP handlers and the authorization guard (auth handler file and
`internal/handlers/user.go`) -/

/-- `strings.TrimPrefix(token, "Bearer ")`. -/
def trimBearer (s : String) : String :=
  if "Bearer ".data.isPrefixOf s.data then
    String.mk (s.data.drop "Bearer ".data.length)
  else s

/-- Outcome of `AuthHandler.AuthMiddleware` on one request: either
`c.AbortWithStatusJSON` (the chain stops) or `c.Set("user_id", ...)`,
`c.Set("username", ...)` followed by `c.Next()`. -/
inductive MwResult
  | abort (status : Nat) (msg : String)
  | proceed (userId : Nat) (username : String)
  deriving DecidableEq, Repr

/-- `AuthHandler.AuthMiddleware`: a missing `Authorization` header reads as
`""` from `c.GetHeader`. -/
def authMiddleware (pub : PubKey) (now : Int) (header : String) : MwResult :=
  if header = "" then .abort 401 "no token provided"
  else
    match validateToken pub now (trimBearer header) with
    | .error _ => .abort 401 "invalid token"
    | .ok claims => .proceed claims.userID claims.username

/-- Response of the user-facing handlers: status, error message, and the
user payload when one is returned. -/
structure HttpUserResp where
  status : Nat
  errMsg : Option String
  user : Option User
  deriving DecidableEq, Repr

/-- A protected route: the middleware runs first; the downstream handler
body (given the context values the guard bound) runs only if the guard
proceeds.  The second component records whether the handler touched the
user store. -/
def runProtected (pub : PubKey) (now : Int) (header : String)
    (handler : Nat → String → HttpUserResp × Bool) : HttpUserResp × Bool :=
  match authMiddleware pub now header with
  | .abort st m => (⟨st, some m, Option.none⟩, false)
  | .proceed uid un => handler uid un

/-- `strconv.ParseUint(s, 10, 32)`: decimal digits only, no sign, value
must fit in 32 bits. -/
def parseUint32 (s : String) : Option Nat :=
  if s.data ≠ [] ∧ s.data.all (fun c => c.isDigit) then
    let v := s.data.foldl (fun a c => a * 10 + (c.toNat - 48)) 0
    if v < 4294967296 then some v else none
  else Option.none

/-- `UserHandler.GetByID`: ID parse, ownership check against the
authenticated context (`GetAuthenticatedUserID`), then the repository read.
The boolean records whether `GetByIDWithContext` was reached.  `authCtx` is
the `user_id` context entry, `none` when no guard bound one. -/
def getByIDHandler (repo : List User) (authCtx : Option Nat)
    (idParam : String) : HttpUserResp × Bool :=
  match parseUint32 idParam with
  | Option.none => (⟨400, some "invalid ID format", Option.none⟩, false)
  | some id =>
    match authCtx with
    | Option.none => (⟨403, some "unauthorized access", Option.none⟩, false)
    | some authId =>
      if authId ≠ id then
        (⟨403, some "unauthorized access", Option.none⟩, false)
      else
        match getByID repo id with
        | Option.none => (⟨404, some "user not found", Option.none⟩, true)
        | some u => (⟨200, Option.none, some { u with password := "" }⟩, true)

/-- `GET /user/:id` behind the guard. -/
def protectedGetUser (pub : PubKey) (now : Int) (header : String)
    (repo : List User) (idParam : String) : HttpUserResp × Bool :=
  runProtected pub now header
    (fun uid _ => getByIDHandler repo (some uid) idParam)

/-- Response of `AuthHandler.ValidateToken`. -/
structure ValidateResp where
  status : Nat
  claims : Option ClaimsData
  errMsg : Option String
  deriving DecidableEq, Repr

/-- `AuthHandler.ValidateToken` (`POST /auth/validate`). -/
def authHandlerValidateToken (pub : PubKey) (now : Int) (header : String) :
    ValidateResp :=
  if header = "" then ⟨401, Option.none, some "no token provided"⟩
  else
    match validateToken pub now (trimBearer header) with
    | .error _ => ⟨401, Option.none, some "invalid token"⟩
    | .ok c => ⟨200, some c, Option.none⟩

/-- Response of `AuthHandler.Login`. -/
structure LoginResp where
  status : Nat
  token : Option String
  user : Option User
  errMsg : Option String
  deriving DecidableEq, Repr

/-- `strings.TrimSpace`: drop leading and trailing whitespace. -/
def trimSpace (s : String) : String :=
  String.mk
    (((s.data.dropWhile Char.isWhitespace).reverse.dropWhile
      Char.isWhitespace).reverse)

/-- `AuthHandler.Login` (`POST /auth/login`): request validation
(`username` 3–50 characters, `password` at least 8), input trimming, the
service call, and on success the `user.Password = ""` scrub before the 200
response.  Rate limiting and JSON transport are not modelled. -/
def authHandlerLogin (repo : List User) (priv : PrivKey) (tokenExpiry : Int)
    (now : Int) (username password : String) : LoginResp :=
  if ¬ (3 ≤ username.length ∧ username.length ≤ 50 ∧ 8 ≤ password.length) then
    ⟨400, Option.none, Option.none, some "validation failed"⟩
  else
    match login repo priv tokenExpiry now (trimSpace username)
        (trimSpace password) with
    | .error _ => ⟨401, Option.none, Option.none, some "invalid credentials"⟩
    | .ok (u, tok) =>
      ⟨200, some tok, some { u with password := "" }, Option.none⟩

/-! ## Shared lemmas -/

theorem isPrefixOf_append_self (l r : List Char) :
    l.isPrefixOf (l ++ r) = true := by
  induction l with
  | nil => simp [List.isPrefixOf]
  | cons c tl ih => simp [List.isPrefixOf, ih]

theorem trimBearer_bearer_append (s : String) :
    trimBearer ("Bearer " ++ s) = s := by
  have hp : "Bearer ".data.isPrefixOf (("Bearer " ++ s).data) = true := by
    rw [String.data_append]
    exact isPrefixOf_append_self "Bearer ".data s.data
  obtain ⟨l⟩ := s
  simp [trimBearer, hp, String.data_append, List.drop_left]

theorem bearer_append_ne_empty (s : String) : ("Bearer " ++ s) ≠ "" := by
  simp [String.ext_iff, String.data_append]

/-- The claims record `GenerateToken` issues for `user` at clock `now` under
the configured expiry `d` (read off the body of `GenerateToken`). -/
def issuedClaims (d now : Int) (user : User) : ClaimsData :=
  { userID := user.id, username := user.usernameForLogin,
    expiresAt := now + d, issuedAt := now, notBefore := now,
    issuer := "login-go", subject := Nat.repr user.id }

/-- The token string `GenerateToken` issues on the success path. -/
def issuedToken (priv : PrivKey) (d now : Int) (user : User) : String :=
  encode ⟨.RS256, issuedClaims d now user,
    .signed priv.keyId .RS256 (issuedClaims d now user)⟩

theorem generateToken_ok (priv : PrivKey) (d now : Int) (user : User)
    (hid : user.id ≠ 0) :
    generateToken priv d now (some user) = .ok (issuedToken priv d now user) := by
  simp [generateToken, issuedToken, issuedClaims, hid]

/-- Evaluation of `ValidateToken` on an honestly generated unexpired token:
the key pair matches, the `RS256` method passes the family check, the
signature verifies, and the clock is inside `[not_before, expires_at]`. -/
theorem validateToken_generate (priv : PrivKey) (pub : PubKey)
    (d now0 now1 : Int) (user : User) (tok : String)
    (hkey : priv.keyId = pub.keyId)
    (hgen : generateToken priv d now0 (some user) = .ok tok)
    (h0 : now0 ≤ now1) (h1 : now1 ≤ now0 + d) :
    validateToken pub now1 tok = .ok (issuedClaims d now0 user) := by
  obtain ⟨pk⟩ := priv
  obtain ⟨bk⟩ := pub
  simp only at hkey
  subst hkey
  by_cases hid : user.id = 0
  · simp [generateToken, hid] at hgen
  · rw [generateToken_ok ⟨pk⟩ d now0 user hid] at hgen
    simp only [Except.ok.injEq] at hgen
    subst hgen
    have hne := encode_ne_empty
      ⟨.RS256, issuedClaims d now0 user,
        .signed pk .RS256 (issuedClaims d now0 user)⟩
    simp only [issuedClaims] at hne
    have hexp : ¬ (now1 > now0 + d) := by omega
    have hnbf : ¬ (now1 < now0) := by omega
    simp [validateToken, issuedToken, hne, decode_encode, Alg.isRSA,
      issuedClaims, hexp, hnbf]

/-! ## Concrete fixtures, used by witnesses and counterexamples -/

def privC : PrivKey := ⟨1⟩

def pubC : PubKey := ⟨1⟩

/-- The bcrypt hash of `"correct-pw"` under salt `5`. -/
def aliceHashC : String :=
  String.mk ('$' :: (encNatL 5 ++ encStrL "correct-pw"))

/-- A stored user: the password column holds the bcrypt hash. -/
def aliceC : User :=
  { id := 7, name := "A", usernameForLogin := "alice", email := "a@b",
    password := aliceHashC }

/-- The same user before registration hashing. -/
def alicePlainC : User := { aliceC with password := "correct-pw" }

def repoC : List User := [aliceC]

/-- The claims `GenerateToken privC 100 0 (some aliceC)` issues. -/
def claimsC : ClaimsData := issuedClaims 100 0 aliceC

/-- The corresponding signed token string. -/
def tokC : String := issuedToken privC 100 0 aliceC

/-! ## Claims -/

/-- C1: Round trip through the token codec — for every user with non-zero ID
and every matching RSA key pair, `GenerateToken` succeeds, and
`ValidateToken` run at any time from issuance up to the configured expiry
succeeds on the produced token string and returns exactly the issued claims;
in particular the returned `UserID` and `Username` are the user's ID and
username. -/
theorem generate_validate_roundtrip (priv : PrivKey) (pub : PubKey)
    (d now0 now1 : Int) (user : User)
    (hkey : priv.keyId = pub.keyId) (hid : user.id ≠ 0)
    (h0 : now0 ≤ now1) (h1 : now1 ≤ now0 + d) :
    ∃ (tok : String) (c : ClaimsData),
      generateToken priv d now0 (some user) = .ok tok ∧
      validateToken pub now1 tok = .ok c ∧
      c.userID = user.id ∧ c.username = user.usernameForLogin ∧
      c = issuedClaims d now0 user := by
  have hgen := generateToken_ok priv d now0 user hid
  exact ⟨_, _, hgen,
    validateToken_generate priv pub d now0 now1 user _ hkey hgen h0 h1,
    rfl, rfl, rfl⟩

/-- Witness for C1 at a concrete key pair, user and clock. -/
theorem generate_validate_roundtrip_witness :
    ∃ (tok : String) (c : ClaimsData),
      generateToken privC 100 0 (some aliceC) = .ok tok ∧
      validateToken pubC 50 tok = .ok c ∧
      c.userID = aliceC.id ∧ c.username = aliceC.usernameForLogin ∧
      c = issuedClaims 100 0 aliceC :=
  generate_validate_roundtrip privC pubC 100 0 50 aliceC rfl (by decide)
    (by decide) (by decide)

/-- C4: algorithm-substitution defense — every structurally well-formed
token whose header declares a non-RSA algorithm (HMAC, ECDSA, `none`, …)
is rejected by `ValidateToken` with the unexpected-signing-method error, no
matter what signature bytes are attached. -/
theorem validate_rejects_non_rsa_alg (pub : PubKey) (now : Int) (a : Alg)
    (c : ClaimsData) (g : Sig) (h : a.isRSA = false) :
    validateToken pub now (encode ⟨a, c, g⟩) =
      .error (.unexpectedMethod a) := by
  have hne := encode_ne_empty ⟨a, c, g⟩
  simp [validateToken, hne, decode_encode, h]

/-- Witness for C4: an `HS256` token is rejected. -/
theorem validate_rejects_non_rsa_alg_witness :
    Alg.isRSA .HS256 = false ∧
    validateToken pubC 0 (encode ⟨.HS256, claimsC, .raw 0⟩) =
      .error (.unexpectedMethod .HS256) :=
  ⟨by decide, validate_rejects_non_rsa_alg pubC 0 .HS256 claimsC (.raw 0)
    (by decide)⟩

/-- C7: a token generated with a negative expiry duration is already
expired at issuance, and `ValidateToken` fails with the `Expired` kind at
every instant from issuance on. -/
theorem negative_expiry_always_expired (priv : PrivKey) (pub : PubKey)
    (d now0 now1 : Int) (user : User) (tok : String)
    (hkey : priv.keyId = pub.keyId) (hd : d < 0)
    (hgen : generateToken priv d now0 (some user) = .ok tok)
    (h0 : now0 ≤ now1) :
    validateToken pub now1 tok = .error .expired := by
  obtain ⟨pk⟩ := priv
  obtain ⟨bk⟩ := pub
  simp only at hkey
  subst hkey
  by_cases hid : user.id = 0
  · simp [generateToken, hid] at hgen
  · rw [generateToken_ok ⟨pk⟩ d now0 user hid] at hgen
    simp only [Except.ok.injEq] at hgen
    subst hgen
    have hne := encode_ne_empty
      ⟨.RS256, issuedClaims d now0 user,
        .signed pk .RS256 (issuedClaims d now0 user)⟩
    simp only [issuedClaims] at hne
    have hexp : now1 > now0 + d := by omega
    simp [validateToken, issuedToken, hne, decode_encode, Alg.isRSA,
      issuedClaims, hexp]

/-- Witness for C7 with `expiry_duration = -1s`, validated at the issuance
instant. -/
theorem negative_expiry_always_expired_witness :
    ((-1 : Int) < 0) ∧ ((0 : Int) ≤ 0) ∧
    generateToken privC (-1) 0 (some aliceC) =
      .ok (issuedToken privC (-1) 0 aliceC) ∧
    validateToken pubC 0 (issuedToken privC (-1) 0 aliceC) =
      .error .expired :=
  ⟨by decide, by decide, generateToken_ok privC (-1) 0 aliceC (by decide),
    negative_expiry_always_expired privC pubC (-1) 0 0 aliceC _ rfl
      (by decide) (generateToken_ok privC (-1) 0 aliceC (by decide))
      (by decide)⟩

/-- C9: `GenerateToken` rejects a nil user and a user with ID `0` with the
`invalid user` error and returns no token; consequently every token it does
issue parses to claims with a non-zero subject ID. -/
theorem generateToken_guards_subject (priv : PrivKey) (d now : Int) :
    generateToken priv d now Option.none = .error .invalidUser
  ∧ (∀ u : User, u.id = 0 →
       generateToken priv d now (some u) = .error .invalidUser)
  ∧ (∀ (usr : Option User) (tok : String),
       generateToken priv d now usr = .ok tok →
       ∃ t : Token, decode tok = some t ∧ t.claims.userID ≠ 0) := by
  refine ⟨rfl, ?_, ?_⟩
  · intro u h
    simp [generateToken, h]
  · intro usr tok hgen
    match usr with
    | Option.none => simp [generateToken] at hgen
    | some u =>
      by_cases hid : u.id = 0
      · simp [generateToken, hid] at hgen
      · rw [generateToken_ok priv d now u hid] at hgen
        simp only [Except.ok.injEq] at hgen
        subst hgen
        exact ⟨_, decode_encode _, hid⟩

/-- Witness for C9: the nil user, a zero-ID user, and the concrete issued
token. -/
theorem generateToken_guards_subject_witness :
    generateToken privC 100 0 Option.none = .error .invalidUser
  ∧ generateToken privC 100 0 (some ⟨0, "z", "zz", "e", "p"⟩) =
      .error .invalidUser
  ∧ (∃ t : Token, decode tokC = some t ∧ t.claims.userID ≠ 0) :=
  ⟨(generateToken_guards_subject privC 100 0).1,
    (generateToken_guards_subject privC 100 0).2.1 _ rfl,
    (generateToken_guards_subject privC 100 0).2.2 (some aliceC) tokC
      (generateToken_ok privC 100 0 aliceC (by decide))⟩

/-- C5: credential-failure collapse — for non-empty username and password,
`Login` returns the very same `invalid credentials` error whether the user
lookup finds nothing or the user exists and the bcrypt comparison fails, so
a caller cannot tell which field was wrong. -/
theorem login_credential_collapse (repo : List User) (priv : PrivKey)
    (d now : Int) (username password : String)
    (hu : username ≠ "") (hp : password ≠ "") :
    (getByUsername repo username = Option.none →
       login repo priv d now username password = .error "invalid credentials")
  ∧ (∀ u : User, getByUsername repo username = some u →
       bcryptCompareHashAndPassword u.password password = false →
       login repo priv d now username password =
         .error "invalid credentials") := by
  constructor
  · intro h
    simp [login, hu, hp, h]
  · intro u h hc
    simp [login, hu, hp, h, hc]

/-- Witness for C5: the not-found branch and the wrong-password branch both
return the identical error. -/
theorem login_credential_collapse_witness :
    getByUsername repoC "bob" = Option.none
  ∧ login repoC privC 100 0 "bob" "whatever-pw" = .error "invalid credentials"
  ∧ getByUsername repoC "alice" = some aliceC
  ∧ bcryptCompareHashAndPassword aliceC.password "wrong-pass" = false
  ∧ login repoC privC 100 0 "alice" "wrong-pass" =
      .error "invalid credentials" :=
  ⟨rfl,
    (login_credential_collapse repoC privC 100 0 "bob" "whatever-pw"
      (by decide) (by decide)).1 rfl,
    rfl, by decide,
    (login_credential_collapse repoC privC 100 0 "alice" "wrong-pass"
      (by decide) (by decide)).2 aliceC rfl (by decide)⟩

/-- C6: password-hash round trip — hashing a user's password and checking
the original password against the result succeeds, and checking any other
password against it fails. -/
theorem hash_check_roundtrip :
    (∀ (u : User) (salt : Nat) (u2 : User),
       u.hashPassword salt = .ok u2 → u2.checkPassword u.password = true)
  ∧ (∀ (u : User) (salt : Nat) (u2 : User) (p1 : String),
       u.hashPassword salt = .ok u2 → p1 ≠ u.password →
       u2.checkPassword p1 = false) := by
  have key : ∀ (u : User) (salt : Nat) (u2 : User) (q : String),
      u.hashPassword salt = .ok u2 →
      u2.checkPassword q = (u.password == q) := by
    intro u salt u2 q h
    unfold User.hashPassword at h
    cases hg : bcryptGenerateFromPassword u.password salt with
    | error e => rw [hg] at h; exact absurd h (by simp)
    | ok hsh =>
      rw [hg] at h
      simp only [Except.ok.injEq] at h
      subst h
      unfold User.checkPassword
      simpa using bcryptCompare_generate u.password q salt hsh hg
  constructor
  · intro u salt u2 h
    rw [key u salt u2 u.password h]
    simp
  · intro u salt u2 p1 h hne
    rw [key u salt u2 p1 h]
    exact beq_eq_false_iff_ne.mpr (Ne.symm hne)

/-- Witness for C6 at the concrete user: hashing `"correct-pw"` and checking
it back, then checking a different password. -/
theorem hash_check_roundtrip_witness :
    alicePlainC.hashPassword 5 = .ok aliceC
  ∧ aliceC.checkPassword alicePlainC.password = true
  ∧ ("wrong-pass" ≠ alicePlainC.password)
  ∧ aliceC.checkPassword "wrong-pass" = false :=
  ⟨rfl,
    (hash_check_roundtrip).1 alicePlainC 5 aliceC rfl,
    by decide,
    (hash_check_roundtrip).2 alicePlainC 5 aliceC "wrong-pass" rfl
      (by decide)⟩

/-- C8 counterexample: `AuthService.Login` itself returns the stored user
record unchanged, so on the successful concrete login the returned identity
still carries the bcrypt hash in its password field — the field is not the
empty string.  (The scrub `user.Password = ""` happens one layer up, in
`AuthHandler.Login`.) -/
theorem login_returns_stored_hash :
    login repoC privC 100 0 "alice" "correct-pw" = .ok (aliceC, tokC)
  ∧ aliceC.password ≠ "" := by
  constructor
  · rfl
  · intro h
    simp [aliceC, aliceHashC, String.ext_iff] at h

/-- C8 (amended): whenever the service-level login on the trimmed inputs
succeeds, the HTTP login handler responds `200` with the token and the
public identity whose password field has been cleared to the empty string
(the username is untouched). -/
theorem handler_login_clears_password (repo : List User) (priv : PrivKey)
    (d now : Int) (username password : String) (u : User) (tok : String)
    (hval : 3 ≤ username.length ∧ username.length ≤ 50 ∧ 8 ≤ password.length)
    (hlogin : login repo priv d now (trimSpace username) (trimSpace password) =
      .ok (u, tok)) :
    authHandlerLogin repo priv d now username password =
      ⟨200, some tok, some { u with password := "" }, Option.none⟩
  ∧ ({ u with password := "" } : User).password = ""
  ∧ ({ u with password := "" } : User).usernameForLogin =
      u.usernameForLogin := by
  refine ⟨?_, rfl, rfl⟩
  simp [authHandlerLogin, hval, hlogin]

/-- Witness for the amended C8 at the scenario of the spec: username
`"alice"`, password `"correct-pw"`. -/
theorem handler_login_clears_password_witness :
    (3 ≤ ("alice" : String).length ∧ ("alice" : String).length ≤ 50 ∧
      8 ≤ ("correct-pw" : String).length)
  ∧ login repoC privC 100 0 (trimSpace "alice") (trimSpace "correct-pw") =
      .ok (aliceC, tokC)
  ∧ authHandlerLogin repoC privC 100 0 "alice" "correct-pw" =
      ⟨200, some tokC, some { aliceC with password := "" }, Option.none⟩ :=
  ⟨by decide, rfl,
    (handler_login_clears_password repoC privC 100 0 "alice" "correct-pw"
      aliceC tokC (by decide) rfl).1⟩

/-- C2: ownership check on `GET /user/:id` — under a valid unexpired token
for `user`, if the token's subject differs from the path id the request is
rejected with `403 Forbidden` and the user store is never read and no user
data is returned; if the subject equals the path id and the record exists,
the request succeeds with `200` and that user's data (password scrubbed). -/
theorem getUser_ownership (repo : List User) (priv : PrivKey) (pub : PubKey)
    (d now0 now1 : Int) (user : User) (tok : String) (id : Nat)
    (idParam : String)
    (hkey : priv.keyId = pub.keyId)
    (hgen : generateToken priv d now0 (some user) = .ok tok)
    (h0 : now0 ≤ now1) (h1 : now1 ≤ now0 + d)
    (hid : parseUint32 idParam = some id) :
    (user.id ≠ id →
       protectedGetUser pub now1 ("Bearer " ++ tok) repo idParam =
         (⟨403, some "unauthorized access", Option.none⟩, false))
  ∧ (user.id = id → ∀ u : User, getByID repo id = some u →
       protectedGetUser pub now1 ("Bearer " ++ tok) repo idParam =
         (⟨200, Option.none, some { u with password := "" }⟩, true)) := by
  have hval := validateToken_generate priv pub d now0 now1 user tok hkey hgen
    h0 h1
  have hmw : authMiddleware pub now1 ("Bearer " ++ tok) =
      .proceed user.id user.usernameForLogin := by
    simp [authMiddleware, bearer_append_ne_empty, trimBearer_bearer_append,
      hval, issuedClaims]
  constructor
  · intro hne
    simp [protectedGetUser, runProtected, hmw, getByIDHandler, hid, hne]
  · intro heq u hu
    subst heq
    simp [protectedGetUser, runProtected, hmw, getByIDHandler, hid, hu]

/-- Witness for C2, the spec's scenario: a valid token for subject `7`
against `GET /user/5` (forbidden, store untouched) and `GET /user/7`
(`200` with the record). -/
theorem getUser_ownership_witness :
    parseUint32 "5" = some 5 ∧ aliceC.id ≠ 5
  ∧ protectedGetUser pubC 50 ("Bearer " ++ tokC) repoC "5" =
      (⟨403, some "unauthorized access", Option.none⟩, false)
  ∧ parseUint32 "7" = some 7 ∧ getByID repoC 7 = some aliceC
  ∧ protectedGetUser pubC 50 ("Bearer " ++ tokC) repoC "7" =
      (⟨200, Option.none, some { aliceC with password := "" }⟩, true) :=
  ⟨by decide, by decide,
    (getUser_ownership repoC privC pubC 100 0 50 aliceC tokC 5 "5" rfl
      (generateToken_ok privC 100 0 aliceC (by decide)) (by decide)
      (by decide) (by decide)).1 (by decide),
    by decide, rfl,
    (getUser_ownership repoC privC pubC 100 0 50 aliceC tokC 7 "7" rfl
      (generateToken_ok privC 100 0 aliceC (by decide)) (by decide)
      (by decide) (by decide)).2 rfl aliceC rfl⟩

/-- C3: the authorization guard is a hard gate — with no `Authorization`
header the middleware aborts `401` and the downstream handler body never
runs (the outcome is the same whatever the handler is); with a header whose
token fails validation it likewise aborts `401` before the handler; and the
guard reaches the handler with bound context values only when validation
succeeded, the bound pair being exactly the validated claims'
`{user_id, username}`. -/
theorem auth_guard_hard_gate (pub : PubKey) (now : Int) (header : String) :
    (header = "" → ∀ handler,
       runProtected pub now header handler =
         (⟨401, some "no token provided", Option.none⟩, false))
  ∧ (header ≠ "" → ∀ e : AuthErr,
       validateToken pub now (trimBearer header) = .error e →
       ∀ handler, runProtected pub now header handler =
         (⟨401, some "invalid token", Option.none⟩, false))
  ∧ (∀ (uid : Nat) (un : String),
       authMiddleware pub now header = .proceed uid un →
       header ≠ "" ∧ ∃ c : ClaimsData,
         validateToken pub now (trimBearer header) = .ok c ∧
         uid = c.userID ∧ un = c.username) := by
  refine ⟨?_, ?_, ?_⟩
  · intro h handler
    simp [runProtected, authMiddleware, h]
  · intro h e he handler
    simp [runProtected, authMiddleware, h, he]
  · intro uid un h
    by_cases hh : header = ""
    · simp [authMiddleware, hh] at h
    · rw [authMiddleware] at h
      simp only [if_neg hh] at h
      cases hv : validateToken pub now (trimBearer header) with
      | error e =>
        rw [hv] at h
        simp at h
      | ok c =>
        rw [hv] at h
        simp only [MwResult.proceed.injEq] at h
        exact ⟨hh, c, rfl, h.1.symm, h.2.symm⟩

/-- Witness for C3: the missing-header case and an invalid-token case, each
with a concrete downstream handler that is never consulted. -/
theorem auth_guard_hard_gate_witness :
    runProtected pubC 0 ""
        (fun _ _ => (⟨200, Option.none, Option.none⟩, true)) =
      (⟨401, some "no token provided", Option.none⟩, false)
  ∧ validateToken pubC 0 (trimBearer "garbage") = .error .malformedToken
  ∧ runProtected pubC 0 "garbage"
        (fun _ _ => (⟨200, Option.none, Option.none⟩, true)) =
      (⟨401, some "invalid token", Option.none⟩, false) :=
  ⟨(auth_guard_hard_gate pubC 0 "").1 rfl _,
    by decide,
    (auth_guard_hard_gate pubC 0 "garbage").2.1 (by decide) .malformedToken
      (by decide) _⟩

/-- C10 counterexample: the guard strips exactly one `"Bearer "` prefix, so
for the token string `t = "Bearer " ++ tokC` the two headers `"Bearer " ++ t`
and `t` give different outcomes — the first aborts, the second proceeds. -/
theorem bearer_double_trim_differs :
    authMiddleware pubC 50 ("Bearer " ++ ("Bearer " ++ tokC)) ≠
      authMiddleware pubC 50 ("Bearer " ++ tokC) := by
  decide

/-- C10 (amended): for every nonempty candidate token string that does not
itself begin with `"Bearer "` — which every string issued by
`GenerateToken` satisfies — the header `"Bearer " ++ t` and the bare header
`t` produce identical outcomes in both the guard and the validation
endpoint. -/
theorem bearer_trim_outcome_equiv (pub : PubKey) (now : Int) (t : String)
    (h1 : t ≠ "") (h2 : "Bearer ".data.isPrefixOf t.data = false) :
    authMiddleware pub now ("Bearer " ++ t) = authMiddleware pub now t
  ∧ authHandlerValidateToken pub now ("Bearer " ++ t) =
      authHandlerValidateToken pub now t
  ∧ (∀ (priv : PrivKey) (d now0 : Int) (usr : Option User) (tk : String),
       generateToken priv d now0 usr = .ok tk →
       tk ≠ "" ∧ "Bearer ".data.isPrefixOf tk.data = false) := by
  have ht : trimBearer t = t := by
    simp [trimBearer, h2]
  have htb : trimBearer ("Bearer " ++ t) = t := trimBearer_bearer_append t
  refine ⟨?_, ?_, ?_⟩
  · simp [authMiddleware, bearer_append_ne_empty, h1, htb, ht]
  · simp [authHandlerValidateToken, bearer_append_ne_empty, h1, htb, ht]
  · intro priv d now0 usr tk hgen
    match usr with
    | Option.none => simp [generateToken] at hgen
    | some u =>
      by_cases hid : u.id = 0
      · simp [generateToken, hid] at hgen
      · rw [generateToken_ok priv d now0 u hid] at hgen
        simp only [Except.ok.injEq] at hgen
        subst hgen
        exact ⟨encode_ne_empty _, bearer_not_isPrefixOf_encode _⟩

/-- Witness for the amended C10 at the concrete issued token. -/
theorem bearer_trim_outcome_equiv_witness :
    tokC ≠ ""
  ∧ "Bearer ".data.isPrefixOf tokC.data = false
  ∧ authMiddleware pubC 50 ("Bearer " ++ tokC) = authMiddleware pubC 50 tokC
  ∧ authHandlerValidateToken pubC 50 ("Bearer " ++ tokC) =
      authHandlerValidateToken pubC 50 tokC :=
  ⟨encode_ne_empty _, bearer_not_isPrefixOf_encode _,
    (bearer_trim_outcome_equiv pubC 50 tokC (encode_ne_empty _)
      (bearer_not_isPrefixOf_encode _)).1,
    (bearer_trim_outcome_equiv pubC 50 tokC (encode_ne_empty _)
      (bearer_not_isPrefixOf_encode _)).2.1⟩

end LoginGo
